import Mathlib

/-!
# Shiftly — Shift Conflict & Auto-Scheduling Engine, shallow embedding

This file embeds the conflict-checking service (`conflict.service.ts`) and the
template-application / auto-scheduling controller logic of the Shiftly
repository in Lean 4, and proves the behavioural claims about them.

Modelling conventions:
* JavaScript `Date` values are modelled as `Int` milliseconds since a local
  epoch that falls on a Thursday (as the Unix epoch does), with no time-zone
  or DST adjustment — the engine works in naive local time.  `getDay`,
  minutes-of-day and `setHours(0,0,0,0)` are floor computations on these
  milliseconds, matching JavaScript semantics (Lean's `Int` `/` and `%` are
  Euclidean, which coincides with floor division for the positive divisors
  used here).
* JavaScript numbers that can be fractional (hour totals) are modelled as `ℚ`.
* Prisma queries are modelled as `List.find?` / `List.filter` over an
  explicit in-memory `Database`, with each `where` clause translated into a
  boolean predicate, and `orderBy` translated into `List.mergeSort`.
* Display-only strings (localized conflict messages, department names in
  conflict details, locale-formatted times) are elided; the structured
  `details` bag of each conflict is modelled as a typed variant carrying the
  fields the engine actually computes.
-/

/-! ## Time arithmetic (helpers of `conflict.service.ts`) -/

def msPerMinute : Int := 60000

def msPerHour : Int := 3600000

def msPerDay : Int := 86400000

/-- `Date.prototype.getDay`: day of week, 0 = Sunday .. 6 = Saturday.
The epoch of our millisecond timeline is a Thursday (day 4). -/
def getDay (t : Int) : Int :=
  (t / msPerDay + 4) % 7

/-- `setHours(0,0,0,0)`: local midnight of the day containing `t`. -/
def startOfDay (t : Int) : Int :=
  t - t % msPerDay

/-- `dateToMinutesOfDay` from the source: `getHours() * 60 + getMinutes()`. -/
def dateToMinutesOfDay (t : Int) : Int :=
  t % msPerDay / msPerMinute

/-- Split a character list at every `':'` (the behaviour of
JavaScript's `time.split(':')`, one piece per separator occurrence). -/
def splitOnColon : List Char → List (List Char)
  | [] => [[]]
  | c :: rest =>
      let r := splitOnColon rest
      if c = ':' then [] :: r
      else
        match r with
        | h :: t => (c :: h) :: t
        | [] => [[c]]

/-- Parse a non-empty all-digit piece as a decimal number (the behaviour of
JavaScript's `Number(...)` on the pieces of a well-formed `HH:mm` string). -/
def parseNatDigits (cs : List Char) : Option Nat :=
  if !cs.isEmpty && cs.all Char.isDigit then
    some (cs.foldl (fun n c => n * 10 + (c.toNat - 48)) 0)
  else none

/-- `timeStringToMinutes` from the source: parse an `HH:mm` string into
minutes since midnight (`time.split(':')` then `hours * 60 + minutes`).
Malformed strings (excluded by upstream validation) evaluate to 0. -/
def timeStringToMinutes (time : String) : Int :=
  match (splitOnColon time.data).map parseNatDigits with
  | [some hours, some minutes] => (hours : Int) * 60 + (minutes : Int)
  | _ => 0

/-- `getWeekBounds` from the source: Monday 00:00:00.000 of the week of
`date` and the following Sunday 23:59:59.999.  The source computes
`diff = getDate() - day + (day === 0 ? -6 : 1)`, i.e. it steps back
`day === 0 ? 6 : day - 1` calendar days, then floors to midnight; the week
end is six days later at 23:59:59.999. -/
def getWeekBounds (date : Int) : Int × Int :=
  let day := getDay date
  let back := if day = 0 then 6 else day - 1
  let weekStart := startOfDay (date - back * msPerDay)
  let weekEnd := weekStart + 6 * msPerDay + (23 * msPerHour + 59 * msPerMinute + 59 * 1000 + 999)
  (weekStart, weekEnd)

/-- `calculateShiftHours` from the source:
`(endTime - startTime) / (1000 * 60 * 60)`, fractional. -/
def calculateShiftHours (startTime endTime : Int) : ℚ :=
  ((endTime - startTime : Int) : ℚ) / (1000 * 60 * 60)

/-! ## Data model -/

/-- Prisma `Shift.status`; queries filter with `status: { not: 'CANCELLED' }`. -/
inductive ShiftStatus where
  | scheduled
  | confirmed
  | completed
  | cancelled
  deriving DecidableEq, Repr

/-- A persisted shift row (fields the engine reads). -/
structure Shift where
  id : String
  employeeId : String
  organizationId : String
  startTime : Int
  endTime : Int
  status : ShiftStatus
  deriving DecidableEq, Repr

/-- An `EmployeeAvailability` row: weekly window for one day of week,
`startTime`/`endTime` as `HH:mm` strings. -/
structure EmployeeAvailability where
  employeeId : String
  dayOfWeek : Int
  startTime : String
  endTime : String
  deriving DecidableEq, Repr

/-- An `Employee` row (fields the engine reads).  `weeklyHoursLimit` is a
nullable integer column; the source guards with the JavaScript truthiness
test `!employee.weeklyHoursLimit`, which treats both `null` and `0` as
"no limit". -/
structure Employee where
  id : String
  weeklyHoursLimit : Option Int
  deriving DecidableEq, Repr

/-- `ShiftInput` from the source: the candidate shift under evaluation.
`shiftId` is set only on update, to exclude the shift being modified. -/
structure ShiftInput where
  employeeId : String
  startTime : Int
  endTime : Int
  shiftId : Option String := none
  deriving DecidableEq, Repr

/-- The slice of the store the engine queries. -/
structure Database where
  shifts : List Shift
  availabilities : List EmployeeAvailability
  employees : List Employee
  deriving Repr

inductive ConflictType where
  | overlappingShift
  | outsideAvailability
  | weeklyHoursExceeded
  deriving DecidableEq, Repr

inductive ConflictSeverity where
  | error
  | warning
  deriving DecidableEq, Repr

/-- The `details` bag of a conflict, as a typed variant per construction
site in the source (overlap; availability absent; availability window
violated; weekly hours exceeded). -/
inductive ConflictDetails where
  | overlap (conflictingShiftId : String) (conflictingStartTime conflictingEndTime : Int)
  | availabilityNotSet (dayOfWeek : Int) (availabilitySet : Bool)
  | outsideWindow (dayOfWeek : Int) (availabilityStart availabilityEnd : String)
  | hoursExceeded (weeklyLimit : Int) (currentHours newShiftHours totalHours exceededBy : ℚ)
  deriving DecidableEq, Repr

/-- A conflict as returned by the evaluators (localized `message` elided). -/
structure Conflict where
  type : ConflictType
  severity : ConflictSeverity
  details : ConflictDetails
  deriving DecidableEq, Repr

structure TimeSuggestion where
  startTime : Int
  endTime : Int
  reason : String
  deriving DecidableEq, Repr

/-- `ConflictCheckResult` from the source; `suggestions` is attached only by
the controller, never by `checkShiftConflicts` itself. -/
structure ConflictCheckResult where
  hasConflicts : Bool
  conflicts : List Conflict
  canOverride : Bool
  suggestions : Option (List TimeSuggestion) := none
  deriving DecidableEq, Repr

/-! ## Query predicates (Prisma `where` clauses) -/

/-- The `where` clause of the `findFirst` in `checkOverlappingShifts`:
same employee and organization, not cancelled, not the excluded shift,
and one of the three interval clauses of the `OR`. -/
def overlappingShiftWhere (input : ShiftInput) (organizationId : String) (s : Shift) : Bool :=
  s.employeeId == input.employeeId &&
  s.organizationId == organizationId &&
  !(s.status == ShiftStatus.cancelled) &&
  (match input.shiftId with
   | some sid => !(s.id == sid)
   | none => true) &&
  ((decide (s.startTime ≤ input.startTime) && decide (s.endTime > input.startTime)) ||
   (decide (s.startTime < input.endTime) && decide (s.endTime ≥ input.endTime)) ||
   (decide (s.startTime ≥ input.startTime) && decide (s.endTime ≤ input.endTime)))

/-- The `where` clause of the `findMany` in `checkWeeklyHoursLimit`:
same employee, not cancelled, not the excluded shift, start and end both
inside the week bounds (no organization filter in the source). -/
def weeklyShiftsWhere (input : ShiftInput) (weekStart weekEnd : Int) (s : Shift) : Bool :=
  s.employeeId == input.employeeId &&
  !(s.status == ShiftStatus.cancelled) &&
  (match input.shiftId with
   | some sid => !(s.id == sid)
   | none => true) &&
  decide (s.startTime ≥ weekStart) &&
  decide (s.endTime ≤ weekEnd)

/-- The `where` clause of the `findMany` in `suggestAlternativeTimes`:
same employee and organization, not cancelled, start and end inside the
calendar day of the candidate start (note: no `shiftId` exclusion). -/
def dayShiftsWhere (input : ShiftInput) (organizationId : String) (s : Shift) : Bool :=
  s.employeeId == input.employeeId &&
  s.organizationId == organizationId &&
  !(s.status == ShiftStatus.cancelled) &&
  decide (s.startTime ≥ startOfDay input.startTime) &&
  decide (s.endTime ≤ startOfDay input.startTime + msPerDay - 1)

/-- `employeeAvailability.findFirst({ where: { employeeId, dayOfWeek } })`. -/
def findAvailabilityFor (db : Database) (employeeId : String) (dayOfWeek : Int) :
    Option EmployeeAvailability :=
  db.availabilities.find? (fun a => a.employeeId == employeeId && a.dayOfWeek == dayOfWeek)

/-- `employee.findUnique({ where: { id } })`. -/
def findEmployee (db : Database) (employeeId : String) : Option Employee :=
  db.employees.find? (fun e => e.id == employeeId)

/-! ## Conflict checks -/

/-- `checkOverlappingShifts`: one read query; any match yields a single
ERROR conflict of type OVERLAPPING_SHIFT carrying the conflicting shift's
id and time window. -/
def checkOverlappingShifts (input : ShiftInput) (organizationId : String) (db : Database) :
    Option Conflict :=
  match db.shifts.find? (overlappingShiftWhere input organizationId) with
  | some overlappingShift =>
      some { type := ConflictType.overlappingShift
             severity := ConflictSeverity.error
             details := ConflictDetails.overlap overlappingShift.id
               overlappingShift.startTime overlappingShift.endTime }
  | none => none

/-- `checkAvailability`: resolve the window for the candidate start's day of
week; no window → WARNING with `availabilitySet = false`; window violated
(start before window start or end after window end, in minutes of day) →
WARNING with both boundaries; otherwise no conflict. -/
def checkAvailability (input : ShiftInput) (db : Database) : Option Conflict :=
  let dayOfWeek := getDay input.startTime
  match findAvailabilityFor db input.employeeId dayOfWeek with
  | none =>
      some { type := ConflictType.outsideAvailability
             severity := ConflictSeverity.warning
             details := ConflictDetails.availabilityNotSet dayOfWeek false }
  | some availability =>
      let shiftStartMinutes := dateToMinutesOfDay input.startTime
      let shiftEndMinutes := dateToMinutesOfDay input.endTime
      let availStartMinutes := timeStringToMinutes availability.startTime
      let availEndMinutes := timeStringToMinutes availability.endTime
      if shiftStartMinutes < availStartMinutes || shiftEndMinutes > availEndMinutes then
        some { type := ConflictType.outsideAvailability
               severity := ConflictSeverity.warning
               details := ConflictDetails.outsideWindow dayOfWeek
                 availability.startTime availability.endTime }
      else
        none

/-- Sum of `calculateShiftHours` over the employee's non-cancelled shifts
inside the week of the candidate start (excluding the excluded shift). -/
def weeklyExistingHours (input : ShiftInput) (db : Database) : ℚ :=
  let wb := getWeekBounds input.startTime
  (db.shifts.filter (weeklyShiftsWhere input wb.1 wb.2)).foldl
    (fun sum s => sum + calculateShiftHours s.startTime s.endTime) 0

/-- Existing weekly hours plus the candidate's own hours. -/
def weeklyTotalHours (input : ShiftInput) (db : Database) : ℚ :=
  weeklyExistingHours input db + calculateShiftHours input.startTime input.endTime

/-- `checkWeeklyHoursLimit`: no employee record, or a falsy
`weeklyHoursLimit` (`null` or `0`), means no limit; otherwise compare the
weekly total against the limit with strict `>`. -/
def checkWeeklyHoursLimit (input : ShiftInput) (db : Database) : Option Conflict :=
  match findEmployee db input.employeeId with
  | none => none
  | some employee =>
      match employee.weeklyHoursLimit with
      | none => none
      | some weeklyHoursLimit =>
          if weeklyHoursLimit = 0 then
            none
          else
            let existingHours := weeklyExistingHours input db
            let newShiftHours := calculateShiftHours input.startTime input.endTime
            let totalHours := weeklyTotalHours input db
            if totalHours > (weeklyHoursLimit : ℚ) then
              some { type := ConflictType.weeklyHoursExceeded
                     severity := ConflictSeverity.warning
                     details := ConflictDetails.hoursExceeded weeklyHoursLimit
                       existingHours newShiftHours totalHours
                       (totalHours - (weeklyHoursLimit : ℚ)) }
            else
              none

/-- `checkShiftConflicts`: run the three checks (concurrently in the source;
the joins are pure so sequential composition is semantically identical),
collect non-null results in fixed order, and derive the verdict. -/
def checkShiftConflicts (input : ShiftInput) (organizationId : String) (db : Database) :
    ConflictCheckResult :=
  let overlapConflict := checkOverlappingShifts input organizationId db
  let availabilityConflict := checkAvailability input db
  let hoursConflict := checkWeeklyHoursLimit input db
  let conflicts := overlapConflict.toList ++ availabilityConflict.toList ++ hoursConflict.toList
  let hasErrors := conflicts.any (fun c => c.severity == ConflictSeverity.error)
  { hasConflicts := decide (conflicts.length > 0)
    conflicts := conflicts
    canOverride := !hasErrors }

/-! ## Alternative time suggestions (`suggestAlternativeTimes`) -/

/-- Absolute timestamp on the day of `t` for an `HH:mm` string:
`new Date(t)` followed by `setHours(hours, minutes, 0, 0)`. -/
def timeOnDay (t : Int) (time : String) : Int :=
  startOfDay t + timeStringToMinutes time * msPerMinute

/-- The employee's non-cancelled shifts on the calendar day of the candidate
start, ordered by start time (`orderBy: { startTime: 'asc' }`). -/
def dayShiftsSorted (input : ShiftInput) (organizationId : String) (db : Database) :
    List Shift :=
  (db.shifts.filter (dayShiftsWhere input organizationId)).insertionSort
    (fun a b => a.startTime ≤ b.startTime)

/-- The `for` loop over consecutive pairs of same-day shifts: each gap at
least `shiftDuration` long yields a suggestion starting at the earlier
shift's end. -/
def betweenSuggestions (shiftDuration : Int) : List Shift → List TimeSuggestion
  | s₁ :: s₂ :: rest =>
      (if decide (s₂.startTime - s₁.endTime ≥ shiftDuration) then
        [{ startTime := s₁.endTime
           endTime := s₁.endTime + shiftDuration
           reason := "Між змінами" }]
      else []) ++ betweenSuggestions shiftDuration (s₂ :: rest)
  | _ => []

/-- The gap-scanning block of `suggestAlternativeTimes`, over the sorted
same-day shifts: when the day is free, propose the start of the window if it
fits; otherwise propose the gap before the first shift, every
sufficiently-large gap between consecutive shifts, and the gap after the
last shift. -/
def daySuggestions (shiftDuration availStart availEnd : Int) :
    List Shift → List TimeSuggestion
  | [] =>
      if decide (availStart + shiftDuration ≤ availEnd) then
        [{ startTime := availStart
           endTime := availStart + shiftDuration
           reason := "Початок доступного часу" }]
      else []
  | firstShift :: rest =>
      (if decide (availStart + shiftDuration ≤ firstShift.startTime) then
        [{ startTime := availStart
           endTime := availStart + shiftDuration
           reason := "Перед першою зміною" }]
      else []) ++
      betweenSuggestions shiftDuration (firstShift :: rest) ++
      (let lastShift := (firstShift :: rest).getLast (List.cons_ne_nil firstShift rest)
       if decide (lastShift.endTime + shiftDuration ≤ availEnd) then
        [{ startTime := lastShift.endTime
           endTime := lastShift.endTime + shiftDuration
           reason := "Після останньої зміни" }]
       else [])

/-- `suggestAlternativeTimes`: no availability window for the day → no
suggestions; otherwise scan the sorted same-day shifts for gaps inside the
window's absolute timestamps and keep at most three suggestions. -/
def suggestAlternativeTimes (input : ShiftInput) (organizationId : String) (db : Database) :
    List TimeSuggestion :=
  let shiftDuration := input.endTime - input.startTime
  match findAvailabilityFor db input.employeeId (getDay input.startTime) with
  | none => []
  | some availability =>
      let existingShifts := dayShiftsSorted input organizationId db
      let availStart := timeOnDay input.startTime availability.startTime
      let availEnd := timeOnDay input.startTime availability.endTime
      (daySuggestions shiftDuration availStart availEnd existingShifts).take 3

/-! ## Template application and auto-scheduling (controller logic) -/

/-- A `ShiftTemplate` row (display-only fields elided). -/
structure ShiftTemplate where
  id : String
  dayOfWeek : Int
  startTime : String
  endTime : String
  requiredEmployees : Nat
  deriving DecidableEq, Repr

/-- The date loop shared by `applyTemplates` and `autoScheduleShifts`:
`for (let date = new Date(start); date <= end; date.setDate(date.getDate() + 1))`
— calendar-day stepping, inclusive of any `date ≤ end`. -/
def dateRange (start «end» : Int) : List Int :=
  if «end» < start then []
  else (List.range ((«end» - start).toNat / msPerDay.toNat + 1)).map
    (fun k => start + (k : Int) * msPerDay)

/-- Shift start/end computed for one date×template pair by the preview path
(`applyTemplates`): `setHours` of the template times on the date, then the
overnight adjustment `if (shiftEnd <= shiftStart) shiftEnd.setDate(+1)`. -/
def previewShiftTimes (template : ShiftTemplate) (date : Int) : Int × Int :=
  let shiftStart := timeOnDay date template.startTime
  let shiftEnd := timeOnDay date template.endTime
  if shiftEnd ≤ shiftStart then (shiftStart, shiftEnd + msPerDay)
  else (shiftStart, shiftEnd)

/-- Shift start/end computed for one date×template pair by the commit path
(`autoScheduleShifts`): `setHours` of the template times on the date, with
no overnight adjustment. -/
def autoScheduleShiftTimes (template : ShiftTemplate) (date : Int) : Int × Int :=
  (timeOnDay date template.startTime, timeOnDay date template.endTime)

/-- One preview row of `applyTemplates` (display fields elided). -/
structure PreviewShift where
  templateId : String
  startTime : Int
  endTime : Int
  deriving DecidableEq, Repr

/-- The preview expansion of `applyTemplates`: for every day in range and
every template matching that day of week, `requiredEmployees` unassigned
preview rows with the template times mapped onto the date. -/
def applyTemplatesPreview (templates : List ShiftTemplate) (start «end» : Int) :
    List PreviewShift :=
  (dateRange start «end»).flatMap fun date =>
    (templates.filter (fun t => t.dayOfWeek == getDay date)).flatMap fun template =>
      List.replicate template.requiredEmployees
        { templateId := template.id
          startTime := (previewShiftTimes template date).1
          endTime := (previewShiftTimes template date).2 }

/-- An employee row as loaded by `autoScheduleShifts`
(`include: { availability: true }`). -/
structure EmployeeWithAvailability where
  id : String
  availability : List EmployeeAvailability
  deriving DecidableEq, Repr

/-- One shift created by the commit path (constant fields elided). -/
structure CreatedShift where
  employeeId : String
  startTime : Int
  endTime : Int
  deriving DecidableEq, Repr

/-- The commit expansion of `autoScheduleShifts`: same date loop and
day-of-week template filter as the preview; per date×template pair, take the
first `requiredEmployees` employees having any availability row for that day
of week, and create one shift per selected employee with the template times
mapped onto the date (no overnight adjustment, no conflict check). -/
def autoScheduleShifts (templates : List ShiftTemplate)
    (employees : List EmployeeWithAvailability) (start «end» : Int) :
    List CreatedShift :=
  (dateRange start «end»).flatMap fun date =>
    (templates.filter (fun t => t.dayOfWeek == getDay date)).flatMap fun template =>
      let availableEmployees := employees.filter fun emp =>
        emp.availability.any (fun a => a.dayOfWeek == getDay date)
      (availableEmployees.take template.requiredEmployees).map fun emp =>
        { employeeId := emp.id
          startTime := (autoScheduleShiftTimes template date).1
          endTime := (autoScheduleShiftTimes template date).2 }

/-! ## Spec-side definitions (for refinement comparisons only) -/

/-- The overlap predicate as worded by the spec (§4.2):
`candidate.start <= existing.start < candidate.end` OR
`candidate.start < existing.end <= candidate.end` OR
`existing.start <= candidate.start AND existing.end >= candidate.end`. -/
def specOverlapPredicate (candStart candEnd exStart exEnd : Int) : Bool :=
  (decide (candStart ≤ exStart) && decide (exStart < candEnd)) ||
  (decide (candStart < exEnd) && decide (exEnd ≤ candEnd)) ||
  (decide (exStart ≤ candStart) && decide (exEnd ≥ candEnd))

/-- The interval part of the source's overlap query, as a predicate on the
four endpoints (the three `OR` clauses of `overlappingShiftWhere`). -/
def queryOverlapPredicate (candStart candEnd exStart exEnd : Int) : Bool :=
  (decide (exStart ≤ candStart) && decide (exEnd > candStart)) ||
  (decide (exStart < candEnd) && decide (exEnd ≥ candEnd)) ||
  (decide (exStart ≥ candStart) && decide (exEnd ≤ candEnd))

/-- The severity the spec fixes for each conflict type: overlap is ERROR,
availability and hours violations are WARNING. -/
def specSeverityFor : ConflictType → ConflictSeverity
  | ConflictType.overlappingShift => ConflictSeverity.error
  | ConflictType.outsideAvailability => ConflictSeverity.warning
  | ConflictType.weeklyHoursExceeded => ConflictSeverity.warning

/-! ## Shape lemmas for the three evaluators -/

/-- Any conflict produced by the overlap check is an `OVERLAPPING_SHIFT`
conflict of severity `ERROR`. -/
theorem checkOverlappingShifts_shape {input : ShiftInput} {organizationId : String}
    {db : Database} {c : Conflict}
    (h : checkOverlappingShifts input organizationId db = some c) :
    c.type = ConflictType.overlappingShift ∧ c.severity = ConflictSeverity.error := by
  unfold checkOverlappingShifts at h
  cases hf : db.shifts.find? (overlappingShiftWhere input organizationId) with
  | none => rw [hf] at h; exact absurd h (by simp)
  | some s =>
      rw [hf] at h
      cases h
      exact ⟨rfl, rfl⟩

/-- Any conflict produced by the availability check is an
`OUTSIDE_AVAILABILITY` conflict of severity `WARNING`. -/
theorem checkAvailability_shape {input : ShiftInput} {db : Database} {c : Conflict}
    (h : checkAvailability input db = some c) :
    c.type = ConflictType.outsideAvailability ∧ c.severity = ConflictSeverity.warning := by
  simp only [checkAvailability] at h
  repeat' split at h
  all_goals cases h
  all_goals exact ⟨rfl, rfl⟩

/-- Any conflict produced by the weekly-hours check is a
`WEEKLY_HOURS_EXCEEDED` conflict of severity `WARNING`. -/
theorem checkWeeklyHoursLimit_shape {input : ShiftInput} {db : Database} {c : Conflict}
    (h : checkWeeklyHoursLimit input db = some c) :
    c.type = ConflictType.weeklyHoursExceeded ∧ c.severity = ConflictSeverity.warning := by
  simp only [checkWeeklyHoursLimit] at h
  repeat' split at h
  all_goals cases h
  all_goals exact ⟨rfl, rfl⟩

/-- C1: in every result of `checkShiftConflicts`, `canOverride` is false
exactly when some collected conflict has severity ERROR, and every collected
conflict carries the severity fixed for its type (overlap → ERROR,
availability and weekly hours → WARNING), so an overlap conflict always
forces `canOverride = false`. -/
theorem checkShiftConflicts_override_iff_error (input : ShiftInput)
    (organizationId : String) (db : Database) :
    ((checkShiftConflicts input organizationId db).canOverride = false ↔
      (checkShiftConflicts input organizationId db).conflicts.any
        (fun c => c.severity == ConflictSeverity.error) = true) ∧
    (checkShiftConflicts input organizationId db).conflicts.all
      (fun c => c.severity == specSeverityFor c.type) = true := by
  constructor
  · show (! _) = false ↔ _ = true
    exact (Bool.not_eq_false' _).to_iff
  · simp only [checkShiftConflicts, List.all_append, Bool.and_eq_true]
    refine ⟨⟨?_, ?_⟩, ?_⟩
    · cases h : checkOverlappingShifts input organizationId db with
      | none => simp
      | some c =>
          obtain ⟨ht, hs⟩ := checkOverlappingShifts_shape h
          simp [ht, hs, specSeverityFor]
    · cases h : checkAvailability input db with
      | none => simp
      | some c =>
          obtain ⟨ht, hs⟩ := checkAvailability_shape h
          simp [ht, hs, specSeverityFor]
    · cases h : checkWeeklyHoursLimit input db with
      | none => simp
      | some c =>
          obtain ⟨ht, hs⟩ := checkWeeklyHoursLimit_shape h
          simp [ht, hs, specSeverityFor]

/-- C3: for well-formed candidate and existing intervals, the three-clause
overlap test of the source's Prisma query agrees with the spec's
three-clause overlap predicate. -/
theorem queryOverlap_eq_specOverlap (candStart candEnd exStart exEnd : Int)
    (hcand : candStart < candEnd) (hex : exStart < exEnd) :
    queryOverlapPredicate candStart candEnd exStart exEnd =
      specOverlapPredicate candStart candEnd exStart exEnd := by
  rw [Bool.eq_iff_iff]
  simp only [queryOverlapPredicate, specOverlapPredicate, Bool.or_eq_true,
    Bool.and_eq_true, decide_eq_true_eq]
  omega

/-- Witness for C3 at a partially overlapping pair of intervals. -/
theorem queryOverlap_eq_specOverlap_witness :
    (0 : Int) < 10 ∧ (5 : Int) < 15 ∧
      queryOverlapPredicate 0 10 5 15 = specOverlapPredicate 0 10 5 15 :=
  ⟨by decide, by decide, queryOverlap_eq_specOverlap 0 10 5 15 (by decide) (by decide)⟩

/-- C6: `getWeekBounds` returns the Monday midnight at or before the input
(its timestamp is day-aligned, falls on day-of-week 1, and lies at most a
week before the input), and a week end exactly `7 days − 1 ms` later, which
falls on a Sunday (23:59:59.999); in particular a Sunday input maps to the
Monday six days earlier. -/
theorem getWeekBounds_monday_anchored (date : Int) :
    (getWeekBounds date).1 % msPerDay = 0 ∧
    getDay (getWeekBounds date).1 = 1 ∧
    (getWeekBounds date).1 ≤ date ∧
    date < (getWeekBounds date).1 + 7 * msPerDay ∧
    (getWeekBounds date).2 = (getWeekBounds date).1 + 7 * msPerDay - 1 ∧
    getDay (getWeekBounds date).2 = 0 ∧
    (getDay date = 0 → (getWeekBounds date).1 = startOfDay date - 6 * msPerDay) := by
  simp only [getWeekBounds, getDay, startOfDay, msPerDay, msPerHour, msPerMinute]
  split
  · omega
  · omega

/-- Witness for C6 at a Sunday timestamp (day index 3 of a Thursday-anchored
epoch): the returned week start is the Monday six days earlier. -/
theorem getWeekBounds_monday_anchored_witness :
    getDay (3 * 86400000) = 0 ∧
      (getWeekBounds (3 * 86400000)).1 = startOfDay (3 * 86400000) - 6 * msPerDay :=
  ⟨by decide, (getWeekBounds_monday_anchored (3 * 86400000)).2.2.2.2.2.2 (by decide)⟩

/-- C4: `checkAvailability` has exactly three outcomes, determined by the
availability window found for the candidate start's day of week: no window →
WARNING `OUTSIDE_AVAILABILITY` with `availabilitySet = false`; a window
violated on either side (in minutes of day) → WARNING
`OUTSIDE_AVAILABILITY` carrying both window boundaries; inclusive
containment → no conflict. -/
theorem checkAvailability_trichotomy (input : ShiftInput) (db : Database) :
    (findAvailabilityFor db input.employeeId (getDay input.startTime) = none →
      checkAvailability input db = some
        { type := ConflictType.outsideAvailability
          severity := ConflictSeverity.warning
          details := ConflictDetails.availabilityNotSet (getDay input.startTime) false }) ∧
    (∀ w, findAvailabilityFor db input.employeeId (getDay input.startTime) = some w →
      ((dateToMinutesOfDay input.startTime < timeStringToMinutes w.startTime ∨
          dateToMinutesOfDay input.endTime > timeStringToMinutes w.endTime) →
        checkAvailability input db = some
          { type := ConflictType.outsideAvailability
            severity := ConflictSeverity.warning
            details := ConflictDetails.outsideWindow (getDay input.startTime)
              w.startTime w.endTime }) ∧
      ((timeStringToMinutes w.startTime ≤ dateToMinutesOfDay input.startTime ∧
          dateToMinutesOfDay input.endTime ≤ timeStringToMinutes w.endTime) →
        checkAvailability input db = none)) := by
  refine ⟨fun hn => ?_, fun w hw => ⟨fun hv => ?_, fun hin => ?_⟩⟩
  · simp only [checkAvailability, hn]
  · simp only [checkAvailability, hw]
    rw [if_pos (by simpa using hv)]
  · simp only [checkAvailability, hw]
    rw [if_neg (by simp; omega)]

/-- Witness for C4: an employee with no availability row for the candidate's
day receives the `availabilitySet = false` WARNING. -/
theorem checkAvailability_trichotomy_witness :
    checkAvailability
        { employeeId := "emp-1", startTime := 4 * 86400000 + 9 * 3600000,
          endTime := 4 * 86400000 + 17 * 3600000 }
        { shifts := [], availabilities := [], employees := [] } =
      some { type := ConflictType.outsideAvailability
             severity := ConflictSeverity.warning
             details := ConflictDetails.availabilityNotSet 1 false } := by
  have h := (checkAvailability_trichotomy
    { employeeId := "emp-1", startTime := 4 * 86400000 + 9 * 3600000,
      endTime := 4 * 86400000 + 17 * 3600000 }
    { shifts := [], availabilities := [], employees := [] }).1 rfl
  simpa using h

/-- C5: with an employee record present and a non-zero weekly limit set, the
total (existing non-cancelled in-week hours, excluding the excluded shift,
plus the candidate's hours) is compared with strict `>`: a total exactly at
the limit raises no conflict, and a total above the limit raises a WARNING
`WEEKLY_HOURS_EXCEEDED` whose `exceededBy` detail is exactly the excess. -/
theorem checkWeeklyHoursLimit_strict_boundary (input : ShiftInput) (db : Database)
    (e : Employee) (L : Int)
    (he : findEmployee db input.employeeId = some e)
    (hl : e.weeklyHoursLimit = some L) (h0 : L ≠ 0) :
    (weeklyTotalHours input db = (L : ℚ) → checkWeeklyHoursLimit input db = none) ∧
    ((L : ℚ) < weeklyTotalHours input db →
      checkWeeklyHoursLimit input db = some
        { type := ConflictType.weeklyHoursExceeded
          severity := ConflictSeverity.warning
          details := ConflictDetails.hoursExceeded L (weeklyExistingHours input db)
            (calculateShiftHours input.startTime input.endTime)
            (weeklyTotalHours input db) (weeklyTotalHours input db - (L : ℚ)) }) := by
  constructor
  · intro heq
    simp only [checkWeeklyHoursLimit, he, hl, if_neg h0]
    rw [if_neg (by rw [heq]; exact lt_irrefl _)]
  · intro hgt
    simp only [checkWeeklyHoursLimit, he, hl, if_neg h0]
    rw [if_pos hgt]

/-- Witness for C5: one 8-hour candidate against a limit of exactly 8 hours
and an empty week — exactly at the limit, hence no conflict. -/
theorem checkWeeklyHoursLimit_strict_boundary_witness :
    checkWeeklyHoursLimit
        { employeeId := "emp-1", startTime := 4 * 86400000 + 9 * 3600000,
          endTime := 4 * 86400000 + 17 * 3600000 }
        { shifts := [], availabilities := [],
          employees := [{ id := "emp-1", weeklyHoursLimit := some 8 }] } = none :=
  (checkWeeklyHoursLimit_strict_boundary
    { employeeId := "emp-1", startTime := 4 * 86400000 + 9 * 3600000,
      endTime := 4 * 86400000 + 17 * 3600000 }
    { shifts := [], availabilities := [],
      employees := [{ id := "emp-1", weeklyHoursLimit := some 8 }] }
    { id := "emp-1", weeklyHoursLimit := some 8 } 8 rfl rfl (by decide)).1
    (by norm_num [weeklyTotalHours, weeklyExistingHours, calculateShiftHours])

/-- C9: a missing employee record, an absent weekly limit, or a weekly limit
of 0 (JavaScript falsiness) all disable the weekly-hours check: no
`WEEKLY_HOURS_EXCEEDED` conflict can be produced for any candidate. -/
theorem checkWeeklyHoursLimit_zero_is_no_cap (input : ShiftInput) (db : Database) :
    (findEmployee db input.employeeId = none → checkWeeklyHoursLimit input db = none) ∧
    (∀ e, findEmployee db input.employeeId = some e →
      (e.weeklyHoursLimit = none ∨ e.weeklyHoursLimit = some 0) →
      checkWeeklyHoursLimit input db = none) := by
  refine ⟨fun hn => ?_, fun e he hz => ?_⟩
  · simp only [checkWeeklyHoursLimit, hn]
  · rcases hz with hz | hz
    · simp only [checkWeeklyHoursLimit, he, hz]
    · simp [checkWeeklyHoursLimit, he, hz]

/-- Witness for C9: an employee with `weeklyHoursLimit = 0` and a 100-hour
candidate week still gets no hours conflict. -/
theorem checkWeeklyHoursLimit_zero_is_no_cap_witness :
    checkWeeklyHoursLimit
        { employeeId := "emp-1", startTime := 4 * 86400000,
          endTime := 4 * 86400000 + 100 * 3600000 }
        { shifts := [], availabilities := [],
          employees := [{ id := "emp-1", weeklyHoursLimit := some 0 }] } = none :=
  (checkWeeklyHoursLimit_zero_is_no_cap
    { employeeId := "emp-1", startTime := 4 * 86400000,
      endTime := 4 * 86400000 + 100 * 3600000 }
    { shifts := [], availabilities := [],
      employees := [{ id := "emp-1", weeklyHoursLimit := some 0 }] }).2
    { id := "emp-1", weeklyHoursLimit := some 0 } rfl (Or.inr rfl)

/-- C2: a candidate whose employee has no overlapping non-cancelled existing
shift (other than the excluded one), whose times lie inclusively inside the
availability window for the start day, and whose weekly total stays at or
under any non-zero weekly limit, yields `hasConflicts = false`, an empty
conflict list, and `canOverride = true`. -/
theorem checkShiftConflicts_clean (input : ShiftInput) (organizationId : String)
    (db : Database) (w : EmployeeAvailability)
    (hreq : input.startTime < input.endTime)
    (hwf : ∀ s ∈ db.shifts, s.startTime < s.endTime)
    (hnoOverlap : ∀ s ∈ db.shifts, s.employeeId = input.employeeId →
      s.organizationId = organizationId → s.status ≠ ShiftStatus.cancelled →
      input.shiftId ≠ some s.id →
      ¬(input.startTime < s.endTime ∧ s.startTime < input.endTime))
    (hw : findAvailabilityFor db input.employeeId (getDay input.startTime) = some w)
    (hwin : timeStringToMinutes w.startTime ≤ dateToMinutesOfDay input.startTime ∧
      dateToMinutesOfDay input.endTime ≤ timeStringToMinutes w.endTime)
    (hhours : ∀ e, findEmployee db input.employeeId = some e →
      ∀ L, e.weeklyHoursLimit = some L → L ≠ 0 → weeklyTotalHours input db ≤ (L : ℚ)) :
    checkShiftConflicts input organizationId db =
      { hasConflicts := false, conflicts := [], canOverride := true } := by
  have hover : checkOverlappingShifts input organizationId db = none := by
    have hfind : db.shifts.find? (overlappingShiftWhere input organizationId) = none := by
      rw [List.find?_eq_none]
      intro s hs hpred
      have hwfs := hwf s hs
      cases hsid : input.shiftId with
      | none =>
          simp only [overlappingShiftWhere, hsid, Bool.and_eq_true, Bool.or_eq_true,
            decide_eq_true_eq, beq_iff_eq, Bool.not_eq_true', beq_eq_false_iff_ne] at hpred
          obtain ⟨⟨⟨⟨hemp, horg⟩, hst⟩, -⟩, hiv⟩ := hpred
          have hnd := hnoOverlap s hs hemp horg hst (by simp [hsid])
          omega
      | some sid =>
          simp only [overlappingShiftWhere, hsid, Bool.and_eq_true, Bool.or_eq_true,
            decide_eq_true_eq, beq_iff_eq, Bool.not_eq_true', beq_eq_false_iff_ne] at hpred
          obtain ⟨⟨⟨⟨hemp, horg⟩, hst⟩, hid⟩, hiv⟩ := hpred
          have hnd := hnoOverlap s hs hemp horg hst
            (by simp only [hsid]; intro hcon; exact hid (Option.some_injective _ hcon).symm)
          omega
    simp only [checkOverlappingShifts, hfind]
  have havail : checkAvailability input db = none :=
    ((checkAvailability_trichotomy input db).2 w hw).2 hwin
  have hhrs : checkWeeklyHoursLimit input db = none := by
    cases he : findEmployee db input.employeeId with
    | none => exact (checkWeeklyHoursLimit_zero_is_no_cap input db).1 he
    | some e =>
        cases hl : e.weeklyHoursLimit with
        | none => exact (checkWeeklyHoursLimit_zero_is_no_cap input db).2 e he (Or.inl hl)
        | some L =>
            by_cases h0 : L = 0
            · exact (checkWeeklyHoursLimit_zero_is_no_cap input db).2 e he (Or.inr (h0 ▸ hl))
            · simp only [checkWeeklyHoursLimit, he, hl, if_neg h0]
              rw [if_neg (not_lt.mpr (hhours e he L hl h0))]
  simp [checkShiftConflicts, hover, havail, hhrs]

/-- Concrete fixture for the C2 witness: Monday 09:00–17:00 candidate,
window 08:00–18:00 on Mondays, weekly limit 40, no existing shifts. -/
def exampleCleanInput : ShiftInput :=
  { employeeId := "emp-1", startTime := 4 * 86400000 + 9 * 3600000,
    endTime := 4 * 86400000 + 17 * 3600000 }

/-- Concrete store for the C2 witness. -/
def exampleCleanDb : Database :=
  { shifts := []
    availabilities := [{ employeeId := "emp-1", dayOfWeek := 1,
                         startTime := "08:00", endTime := "18:00" }]
    employees := [{ id := "emp-1", weeklyHoursLimit := some 40 }] }

/-- Witness for C2: the clean fixture produces the clean verdict. -/
theorem checkShiftConflicts_clean_witness :
    checkShiftConflicts exampleCleanInput "org-1" exampleCleanDb =
      { hasConflicts := false, conflicts := [], canOverride := true } :=
  checkShiftConflicts_clean exampleCleanInput "org-1" exampleCleanDb
    { employeeId := "emp-1", dayOfWeek := 1, startTime := "08:00", endTime := "18:00" }
    (by decide)
    (by simp [exampleCleanDb])
    (by simp [exampleCleanDb])
    (by rfl)
    (by decide)
    (by
      intro e he L hl h0
      have hfind : findEmployee exampleCleanDb "emp-1" =
          some { id := "emp-1", weeklyHoursLimit := some 40 } := rfl
      rw [show findEmployee exampleCleanDb exampleCleanInput.employeeId =
        findEmployee exampleCleanDb "emp-1" from rfl, hfind] at he
      cases he
      rw [show ({ id := "emp-1", weeklyHoursLimit := some 40 } : Employee).weeklyHoursLimit =
        some 40 from rfl] at hl
      cases hl
      norm_num [weeklyTotalHours, weeklyExistingHours, calculateShiftHours,
        exampleCleanInput, exampleCleanDb])

/-! ## Soundness of the gap scanner -/

instance : IsTotal Shift (fun a b => a.startTime ≤ b.startTime) :=
  ⟨fun a b => le_total a.startTime b.startTime⟩

instance : IsTrans Shift (fun a b => a.startTime ≤ b.startTime) :=
  ⟨fun _ _ _ hab hbc => le_trans hab hbc⟩

/-- In a `Pairwise`-related list, every element either is the last element
or is related to it. -/
theorem pairwise_rel_getLast {α : Type} {R : α → α → Prop} :
    ∀ (l : List α) (h : l ≠ []), l.Pairwise R →
      ∀ s ∈ l, s = l.getLast h ∨ R s (l.getLast h) := by
  intro l
  induction l with
  | nil => intro h; exact absurd rfl h
  | cons a t ih =>
      intro h hp s hs
      cases t with
      | nil =>
          simp only [List.mem_singleton] at hs
          subst hs
          left
          rfl
      | cons b t' =>
          have hne : (b :: t') ≠ [] := List.cons_ne_nil _ _
          rw [List.getLast_cons hne]
          obtain ⟨hhead, htail⟩ := List.pairwise_cons.mp hp
          rcases List.mem_cons.mp hs with rfl | hs'
          · right; exact hhead _ (List.getLast_mem hne)
          · exact ih hne htail s hs'

/-- Every suggestion emitted by the between-shifts scan over a
well-formed, chained (end-before-next-start), in-window list of shifts has
the requested duration, starts at some listed shift's end, overlaps no
listed shift, and stays inside the window. -/
theorem betweenSuggestions_sound {dur availStart availEnd : Int} :
    ∀ l : List Shift,
      l.Pairwise (fun a b => a.endTime ≤ b.startTime) →
      (∀ s ∈ l, s.startTime < s.endTime) →
      (∀ s ∈ l, availStart ≤ s.startTime ∧ s.endTime ≤ availEnd) →
      ∀ sug ∈ betweenSuggestions dur l,
        sug.endTime = sug.startTime + dur ∧
        (∃ x ∈ l, sug.startTime = x.endTime) ∧
        (∀ s ∈ l, s.endTime ≤ sug.startTime ∨ sug.endTime ≤ s.startTime) ∧
        availStart ≤ sug.startTime ∧ sug.endTime ≤ availEnd := by
  intro l
  induction l with
  | nil => intro _ _ _ sug hsug; simp [betweenSuggestions] at hsug
  | cons a t ih =>
      cases t with
      | nil => intro _ _ _ sug hsug; simp [betweenSuggestions] at hsug
      | cons b rest =>
          intro hchain hwf hin sug hsug
          obtain ⟨hheadA, hchainT⟩ := List.pairwise_cons.mp hchain
          obtain ⟨hheadB, hchainR⟩ := List.pairwise_cons.mp hchainT
          simp only [betweenSuggestions] at hsug
          rcases List.mem_append.mp hsug with h1 | h2
          · by_cases hc : b.startTime - a.endTime ≥ dur
            · simp only [hc, decide_True, if_true, List.mem_singleton] at h1
              subst h1
              dsimp only
              have hwa := hwf a (by simp)
              have hwb := hwf b (by simp)
              have hina := hin a (by simp)
              have hinb := hin b (by simp)
              refine ⟨rfl, ⟨a, by simp, rfl⟩, fun s hs => ?_, by omega, by omega⟩
              rcases List.mem_cons.mp hs with rfl | hs'
              · left; exact le_refl _
              · rcases List.mem_cons.mp hs' with rfl | hs''
                · right; omega
                · right
                  have := hheadB s hs''
                  omega
            · simp [hc] at h1
          · have ihres := ih hchainT
              (fun s hs => hwf s (List.mem_cons_of_mem _ hs))
              (fun s hs => hin s (List.mem_cons_of_mem _ hs)) sug h2
            obtain ⟨hdur, ⟨x, hx, hxe⟩, hdisj, hwin⟩ := ihres
            refine ⟨hdur, ⟨x, List.mem_cons_of_mem _ hx, hxe⟩, fun s hs => ?_, hwin⟩
            rcases List.mem_cons.mp hs with rfl | hs'
            · left
              have hax := hheadA x hx
              have hwx := hwf x (List.mem_cons_of_mem _ hx)
              omega
            · exact hdisj s hs'

/-- Every suggestion emitted by the whole day scan over a well-formed,
chained, in-window list of shifts has the requested duration, overlaps no
listed shift, and stays inside the window. -/
theorem daySuggestions_sound (dur availStart availEnd : Int) (l : List Shift)
    (hchain : l.Pairwise (fun a b => a.endTime ≤ b.startTime))
    (hwf : ∀ s ∈ l, s.startTime < s.endTime)
    (hin : ∀ s ∈ l, availStart ≤ s.startTime ∧ s.endTime ≤ availEnd) :
    ∀ sug ∈ daySuggestions dur availStart availEnd l,
      sug.endTime = sug.startTime + dur ∧
      (∀ s ∈ l, s.endTime ≤ sug.startTime ∨ sug.endTime ≤ s.startTime) ∧
      availStart ≤ sug.startTime ∧ sug.endTime ≤ availEnd := by
  cases l with
  | nil =>
      intro sug hsug
      simp only [daySuggestions] at hsug
      by_cases hc : availStart + dur ≤ availEnd
      · simp only [hc, decide_True, if_true, List.mem_singleton] at hsug
        subst hsug
        dsimp only
        exact ⟨rfl, by simp, le_refl _, hc⟩
      · simp [hc] at hsug
  | cons firstShift rest =>
      intro sug hsug
      simp only [daySuggestions] at hsug
      obtain ⟨hheadF, hchainR⟩ := List.pairwise_cons.mp hchain
      have hwfF := hwf firstShift (by simp)
      have hinF := hin firstShift (by simp)
      rcases List.mem_append.mp hsug with h12 | h3
      · rcases List.mem_append.mp h12 with h1 | h2
        · by_cases hc : availStart + dur ≤ firstShift.startTime
          · simp only [hc, decide_True, if_true, List.mem_singleton] at h1
            subst h1
            dsimp only
            refine ⟨rfl, fun s hs => ?_, le_refl _, by omega⟩
            rcases List.mem_cons.mp hs with rfl | hs'
            · right; exact hc
            · right
              have := hheadF s hs'
              omega
          · simp [hc] at h1
        · have hb := betweenSuggestions_sound (firstShift :: rest) hchain hwf hin sug h2
          exact ⟨hb.1, hb.2.2.1, hb.2.2.2⟩
      · have hne := List.cons_ne_nil firstShift rest
        have hlastMem := List.getLast_mem hne
        have hwfL := hwf _ hlastMem
        have hinL := hin _ hlastMem
        by_cases hc : ((firstShift :: rest).getLast hne).endTime + dur ≤ availEnd
        · simp only [hc, decide_True, if_true, List.mem_singleton] at h3
          subst h3
          dsimp only
          refine ⟨rfl, fun s hs => ?_, by omega, hc⟩
          rcases pairwise_rel_getLast _ hne hchain s hs with rfl | hrel
          · left; exact le_refl _
          · left; omega
        · simp [hc] at h3

/-- C7 (amended): provided each of the employee's same-day non-cancelled
shifts is well-formed (start before end), they are pairwise non-overlapping,
and each lies inside the availability window, every returned
`TimeSuggestion` is a non-conflicting slot: its interval overlaps none of
those shifts, and it lies entirely inside the window (suggestion start at or
after the window start, suggestion end at or before the window end). -/
theorem suggestAlternativeTimes_sound (input : ShiftInput) (organizationId : String)
    (db : Database) (w : EmployeeAvailability)
    (hw : findAvailabilityFor db input.employeeId (getDay input.startTime) = some w)
    (hwf : ∀ s ∈ dayShiftsSorted input organizationId db, s.startTime < s.endTime)
    (hdisj : (dayShiftsSorted input organizationId db).Pairwise
      (fun a b => a.endTime ≤ b.startTime ∨ b.endTime ≤ a.startTime))
    (hin : ∀ s ∈ dayShiftsSorted input organizationId db,
      timeOnDay input.startTime w.startTime ≤ s.startTime ∧
      s.endTime ≤ timeOnDay input.startTime w.endTime) :
    ∀ sug ∈ suggestAlternativeTimes input organizationId db,
      (∀ s ∈ dayShiftsSorted input organizationId db,
        s.endTime ≤ sug.startTime ∨ sug.endTime ≤ s.startTime) ∧
      timeOnDay input.startTime w.startTime ≤ sug.startTime ∧
      sug.endTime ≤ timeOnDay input.startTime w.endTime := by
  intro sug hsug
  have hsort : (dayShiftsSorted input organizationId db).Pairwise
      (fun a b => a.startTime ≤ b.startTime) := by
    unfold dayShiftsSorted
    exact List.sorted_insertionSort _ _
  have hchain : (dayShiftsSorted input organizationId db).Pairwise
      (fun a b => a.endTime ≤ b.startTime) := by
    refine (hsort.and hdisj).imp_of_mem ?_
    intro a b ha hb hr
    rcases hr.2 with hab | hba
    · exact hab
    · have := hwf b hb
      have := hr.1
      omega
  simp only [suggestAlternativeTimes, hw] at hsug
  exact (daySuggestions_sound _ _ _ _ hchain hwf hin sug (List.take_subset _ _ hsug)).2

/-- Fixture refuting C7 as stated: availability 09:00–17:00 on Monday, one
existing shift 06:00–07:00 (before the window), candidate 10:00–12:00. -/
def exampleSuggestInput : ShiftInput :=
  { employeeId := "emp-1", startTime := 4 * 86400000 + 10 * 3600000,
    endTime := 4 * 86400000 + 12 * 3600000 }

/-- Store for the C7 counterexample. -/
def exampleSuggestDb : Database :=
  { shifts := [{ id := "shift-1", employeeId := "emp-1", organizationId := "org-1",
                 startTime := 4 * 86400000 + 6 * 3600000,
                 endTime := 4 * 86400000 + 7 * 3600000, status := ShiftStatus.scheduled }]
    availabilities := [{ employeeId := "emp-1", dayOfWeek := 1,
                         startTime := "09:00", endTime := "17:00" }]
    employees := [] }

/-- Counterexample to C7 as stated: the after-last-shift suggestion starts
at 07:00, two hours before the 09:00 window start, so not every suggestion
lies inside the availability window. -/
theorem suggestAlternativeTimes_window_cex :
    suggestAlternativeTimes exampleSuggestInput "org-1" exampleSuggestDb =
      [{ startTime := 4 * 86400000 + 7 * 3600000,
         endTime := 4 * 86400000 + 9 * 3600000,
         reason := "Після останньої зміни" }] ∧
    ((suggestAlternativeTimes exampleSuggestInput "org-1" exampleSuggestDb).all
      (fun sug =>
        decide (timeOnDay exampleSuggestInput.startTime "09:00" ≤ sug.startTime))) = false := by
  constructor
  · rfl
  · rfl

/-- Fixture for the C7 witness: availability 09:00–17:00 on Monday, one
existing shift 10:00–12:00 inside the window, candidate 10:00–12:00. -/
def exampleSuggestInputTwo : ShiftInput :=
  { employeeId := "emp-1", startTime := 4 * 86400000 + 10 * 3600000,
    endTime := 4 * 86400000 + 12 * 3600000 }

/-- Store for the C7 witness. -/
def exampleSuggestDbTwo : Database :=
  { shifts := [{ id := "shift-2", employeeId := "emp-1", organizationId := "org-1",
                 startTime := 4 * 86400000 + 10 * 3600000,
                 endTime := 4 * 86400000 + 12 * 3600000, status := ShiftStatus.scheduled }]
    availabilities := [{ employeeId := "emp-1", dayOfWeek := 1,
                         startTime := "09:00", endTime := "17:00" }]
    employees := [] }

/-- Witness for the amended C7: with the one existing shift inside the
window, the returned 12:00–14:00 suggestion lies inside the window. -/
theorem suggestAlternativeTimes_sound_witness :
    timeOnDay exampleSuggestInputTwo.startTime "09:00" ≤ 4 * 86400000 + 12 * 3600000 ∧
    (4 * 86400000 + 14 * 3600000 : Int) ≤ timeOnDay exampleSuggestInputTwo.startTime "17:00" :=
  (suggestAlternativeTimes_sound exampleSuggestInputTwo "org-1" exampleSuggestDbTwo
    { employeeId := "emp-1", dayOfWeek := 1, startTime := "09:00", endTime := "17:00" }
    rfl (by decide) (by decide) (by decide)
    { startTime := 4 * 86400000 + 12 * 3600000,
      endTime := 4 * 86400000 + 14 * 3600000,
      reason := "Після останньої зміни" } (by decide)).2

/-- An overnight template (end time at or before start time) for the C8
counterexample. -/
def exampleOvernightTemplate : ShiftTemplate :=
  { id := "tmpl-1", dayOfWeek := 1, startTime := "22:00", endTime := "06:00",
    requiredEmployees := 1 }

/-- Counterexample to C8 as stated: for an overnight template the preview
path pushes the end to the next day while the commit path does not, so the
two expansions do not compute identical timestamps for the same
date×template pair (here a Monday whose day-of-week matches the template
and which belongs to the one-day range it spans). -/
theorem applyTemplates_autoSchedule_times_cex :
    (4 * 86400000 : Int) ∈ dateRange (4 * 86400000) (4 * 86400000) ∧
    exampleOvernightTemplate.dayOfWeek = getDay (4 * 86400000) ∧
    previewShiftTimes exampleOvernightTemplate (4 * 86400000) ≠
      autoScheduleShiftTimes exampleOvernightTemplate (4 * 86400000) := by
  refine ⟨by decide, by decide, by decide⟩

/-- C8 (amended): for each date in the shared date range and each template
matching that date's day of week, the preview path (`applyTemplates`) and
the commit path (`autoScheduleShifts`) always compute the same concrete
start timestamp; they compute the same end timestamp exactly when the
template is not overnight (parsed start minutes strictly below parsed end
minutes); for an overnight template the preview end is one calendar day
later than the commit end, so the ends differ, and the commit end lies at
or before its own start. -/
theorem applyTemplates_autoSchedule_same_times (start «end» date : Int)
    (template : ShiftTemplate)
    (hdate : date ∈ dateRange start «end»)
    (hdow : template.dayOfWeek = getDay date) :
    (previewShiftTimes template date).1 = (autoScheduleShiftTimes template date).1 ∧
    (timeStringToMinutes template.startTime < timeStringToMinutes template.endTime →
      previewShiftTimes template date = autoScheduleShiftTimes template date) ∧
    (timeStringToMinutes template.endTime ≤ timeStringToMinutes template.startTime →
      (previewShiftTimes template date).2 =
        (autoScheduleShiftTimes template date).2 + msPerDay ∧
      (previewShiftTimes template date).2 ≠ (autoScheduleShiftTimes template date).2 ∧
      (autoScheduleShiftTimes template date).2 ≤ (autoScheduleShiftTimes template date).1) := by
  simp only [previewShiftTimes, autoScheduleShiftTimes, timeOnDay, msPerMinute, msPerDay]
  split
  · next h =>
      refine ⟨rfl, fun hday => ?_, fun hover => ⟨rfl, ?_, ?_⟩⟩
      · exfalso; omega
      · dsimp only; omega
      · dsimp only; omega
  · next h =>
      refine ⟨rfl, fun _ => rfl, fun hover => ?_⟩
      exfalso; omega

/-- Witness for the amended C8: a 09:00–17:00 Monday template produces the
same timestamps on both paths for the Monday in range. -/
theorem applyTemplates_autoSchedule_same_times_witness :
    ((4 * 86400000 : Int) ∈ dateRange (4 * 86400000) (4 * 86400000)) ∧
    (({ id := "tmpl-2", dayOfWeek := 1, startTime := "09:00", endTime := "17:00",
        requiredEmployees := 2 } : ShiftTemplate).dayOfWeek = getDay (4 * 86400000)) ∧
    previewShiftTimes
        { id := "tmpl-2", dayOfWeek := 1, startTime := "09:00", endTime := "17:00",
          requiredEmployees := 2 } (4 * 86400000) =
      autoScheduleShiftTimes
        { id := "tmpl-2", dayOfWeek := 1, startTime := "09:00", endTime := "17:00",
          requiredEmployees := 2 } (4 * 86400000) :=
  ⟨by decide, by decide,
    (applyTemplates_autoSchedule_same_times (4 * 86400000) (4 * 86400000) (4 * 86400000)
      { id := "tmpl-2", dayOfWeek := 1, startTime := "09:00", endTime := "17:00",
        requiredEmployees := 2 }
      (by decide) (by decide)).2.1 (by decide)⟩

/-- C10: on an update (`shiftId` set), the suggester does not exclude the
shift being updated: its whole computation is independent of `shiftId`, and
a same-day row is admitted by its query purely on employee, organization,
status and day — while the overlap query and the weekly-hours query both
reject any row whose id equals the excluded `shiftId`. -/
theorem suggestAlternativeTimes_no_exclusion (input : ShiftInput)
    (organizationId : String) (db : Database) (sid : String)
    (hsid : input.shiftId = some sid) :
    suggestAlternativeTimes input organizationId db =
      suggestAlternativeTimes { input with shiftId := none } organizationId db ∧
    (∀ s : Shift, s.employeeId = input.employeeId → s.organizationId = organizationId →
      s.status ≠ ShiftStatus.cancelled →
      startOfDay input.startTime ≤ s.startTime →
      s.endTime ≤ startOfDay input.startTime + msPerDay - 1 →
      dayShiftsWhere input organizationId s = true) ∧
    (∀ s : Shift, s.id = sid → overlappingShiftWhere input organizationId s = false) ∧
    (∀ s : Shift, s.id = sid →
      weeklyShiftsWhere input (getWeekBounds input.startTime).1
        (getWeekBounds input.startTime).2 s = false) := by
  refine ⟨?_, ?_, ?_, ?_⟩
  · cases input
    rfl
  · intro s h1 h2 h3 h4 h5
    simp only [dayShiftsWhere, Bool.and_eq_true, beq_iff_eq, Bool.not_eq_true',
      decide_eq_true_eq]
    refine ⟨⟨⟨⟨h1, h2⟩, ?_⟩, h4⟩, h5⟩
    simpa using h3
  · intro s hid
    simp [overlappingShiftWhere, hsid, hid]
  · intro s hid
    simp [weeklyShiftsWhere, hsid, hid]

/-- Witness for C10 on a concrete update request: the suggester output is
unchanged by dropping `shiftId`, while the overlap and weekly-hours query
predicates both reject the row that carries the excluded id. -/
theorem suggestAlternativeTimes_no_exclusion_witness :
    suggestAlternativeTimes
        { employeeId := "emp-1", startTime := 4 * 86400000 + 10 * 3600000,
          endTime := 4 * 86400000 + 12 * 3600000, shiftId := some "shift-2" }
        "org-1" exampleSuggestDbTwo =
      suggestAlternativeTimes
        { employeeId := "emp-1", startTime := 4 * 86400000 + 10 * 3600000,
          endTime := 4 * 86400000 + 12 * 3600000, shiftId := none }
        "org-1" exampleSuggestDbTwo ∧
    overlappingShiftWhere
        { employeeId := "emp-1", startTime := 4 * 86400000 + 10 * 3600000,
          endTime := 4 * 86400000 + 12 * 3600000, shiftId := some "shift-2" }
        "org-1"
        { id := "shift-2", employeeId := "emp-1", organizationId := "org-1",
          startTime := 4 * 86400000 + 10 * 3600000,
          endTime := 4 * 86400000 + 12 * 3600000, status := ShiftStatus.scheduled } = false :=
  ⟨(suggestAlternativeTimes_no_exclusion
      { employeeId := "emp-1", startTime := 4 * 86400000 + 10 * 3600000,
        endTime := 4 * 86400000 + 12 * 3600000, shiftId := some "shift-2" }
      "org-1" exampleSuggestDbTwo "shift-2" rfl).1,
   (suggestAlternativeTimes_no_exclusion
      { employeeId := "emp-1", startTime := 4 * 86400000 + 10 * 3600000,
        endTime := 4 * 86400000 + 12 * 3600000, shiftId := some "shift-2" }
      "org-1" exampleSuggestDbTwo "shift-2" rfl).2.2.1
      { id := "shift-2", employeeId := "emp-1", organizationId := "org-1",
        startTime := 4 * 86400000 + 10 * 3600000,
        endTime := 4 * 86400000 + 12 * 3600000, status := ShiftStatus.scheduled } rfl⟩
